import Mathlib

/-!
Verification development for the natter_go repository.

Shallow embedding of the core components:
- internal/status (StatusManager: handleEvent, writeFile)
- internal/orchestrator (New, portOf, splitAddr, runWorker)
- internal/keepalive (minInterval, TCPKeepAlive backoff loop, UDPKeepAlive DNS frame)
- internal/stun (GetUDPMapping, GetTCPMapping)
- socket-creation control functions (listenWithReuse, newBoundDialer, newDialerWithReuse)

Go machine integers are modelled as Int with explicit clamping where the code
clamps; Go maps are modelled as association lists (deterministic stand-in for
map iteration); fallible / panicking code returns Option.
-/

namespace NatterGo

/-! ## JSON documents (the status file), modelling encoding/json output shape -/

/-- Minimal JSON value AST, enough for the status document written by
internal/status writeFile: objects, arrays and strings. -/
inductive Json where
  | str : String → Json
  | arr : List Json → Json
  | obj : List (String × Json) → Json

/-- Predicate: a JSON value is an object with exactly the two string fields
"inner" and "outer", in that order (the record shape writeFile produces). -/
def isMappingRecord : Json → Bool
  | Json.obj [(k1, Json.str _), (k2, Json.str _)] => k1 == "inner" && k2 == "outer"
  | _ => false

/-- Predicate: a JSON value is an object whose top level has exactly the two
keys "tcp" and "udp", each holding an array of mapping records. -/
def isStatusDoc : Json → Bool
  | Json.obj [(k1, Json.arr xs), (k2, Json.arr ys)] =>
      k1 == "tcp" && k2 == "udp" && xs.all isMappingRecord && ys.all isMappingRecord
  | _ => false

/-! ## Association lists, modelling Go maps deterministically -/

/-- Go map read m[k]: first association wins (keys are unique in all states
reachable in this development). -/
def lookupA {α : Type} : List (String × α) → String → Option α
  | [], _ => none
  | kv :: rest, k => if kv.1 = k then some kv.2 else lookupA rest k

/-- Go map write m[k] = v on a non-nil map: update in place if present,
append otherwise. -/
def setA {α : Type} : List (String × α) → String → α → List (String × α)
  | [], k, v => [(k, v)]
  | kv :: rest, k, v => if kv.1 = k then (k, v) :: rest else kv :: setA rest k v

theorem lookupA_setA_self {α : Type} (m : List (String × α)) (k : String) (v : α) :
    lookupA (setA m k v) k = some v := by
  induction m with
  | nil => simp [setA, lookupA]
  | cons kv rest ih =>
    by_cases h : kv.1 = k
    · simp [setA, h, lookupA]
    · simp [setA, h, lookupA, ih]

theorem keys_setA_of_lookup {α : Type} (m : List (String × α)) (k : String) (v w : α)
    (h : lookupA m k = some v) : (setA m k w).map Prod.fst = m.map Prod.fst := by
  induction m with
  | nil => simp [lookupA] at h
  | cons kv rest ih =>
    by_cases hk : kv.1 = k
    · simp [setA, hk]
    · simp [lookupA, hk] at h
      simp [setA, hk, ih h]

/-! ## Status manager (internal/status, src/unnamed/part_001) -/

/-- UpdateEvent from internal/status: one mapping update. -/
structure UpdateEvent where
  Protocol  : String
  InnerAddr : String
  OuterAddr : String
deriving DecidableEq, Repr

/-- Observable state of a StatusManager: the mappings table
(protocol to inner to outer), every JSON document written to the status file
so far (in order), and the number of hook processes spawned. -/
structure ManagerState where
  mappings : List (String × List (String × String))
  docs     : List Json
  hooks    : Nat

/-- State produced by NewManager: table seeded with exactly the keys
"tcp" and "udp" (both empty), no file writes yet, no hooks spawned. -/
def initialManagerState : ManagerState :=
  { mappings := [("tcp", []), ("udp", [])], docs := [], hooks := 0 }

/-- Translation of writeFile's record construction: one JSON object per
(inner, outer) pair of a protocol map. -/
def recsOf (pm : List (String × String)) : List Json :=
  pm.map (fun io => Json.obj [("inner", Json.str io.1), ("outer", Json.str io.2)])

/-- Go statement tmp[protocol] = append(tmp[protocol], recs...) on the non-nil
map tmp: extend the entry if the key is present, create it otherwise. -/
def appendRecs (tmp : List (String × List Json)) (protocol : String) (recs : List Json) :
    List (String × List Json) :=
  match lookupA tmp protocol with
  | some old => setA tmp protocol (old ++ recs)
  | none => tmp ++ [(protocol, recs)]

/-- Translation of writeFile (src/unnamed/part_001 lines 96-120): seed
tmp with empty "tcp" and "udp" arrays, then append one record per mapping
entry, then encode. -/
def writeFileDoc (mappings : List (String × List (String × String))) : Json :=
  let tmp :=
    mappings.foldl (fun tmp pr => appendRecs tmp pr.1 (recsOf pr.2))
      [("tcp", []), ("udp", [])]
  Json.obj (tmp.map (fun kv => (kv.1, Json.arr kv.2)))

/-- The state change of the non-deduplicated branch of handleEvent: update the
table, write the file, spawn the hook when a hook command is configured. -/
def applyUpdate (hookCmd : String) (st : ManagerState) (ev : UpdateEvent)
    (pm : List (String × String)) : ManagerState :=
  let mappings' := setA st.mappings ev.Protocol (setA pm ev.InnerAddr ev.OuterAddr)
  { mappings := mappings'
    docs := st.docs ++ [writeFileDoc mappings']
    hooks := st.hooks + (if hookCmd = "" then 0 else 1) }

/-- Translation of handleEvent (src/unnamed/part_001 lines 68-93).
A protocol absent from the table yields a nil inner map in Go; the membership
read then reports absent, and the subsequent assignment
protocolMap[ev.InnerAddr] = ev.OuterAddr panics (write to nil map), modelled
as none. When the inner map exists and already holds ev.OuterAddr for
ev.InnerAddr the event is dropped unchanged. -/
def handleEvent (hookCmd : String) (st : ManagerState) (ev : UpdateEvent) :
    Option ManagerState :=
  match lookupA st.mappings ev.Protocol with
  | none => none
  | some pm =>
    match lookupA pm ev.InnerAddr with
    | some old =>
      if old = ev.OuterAddr then some st
      else some (applyUpdate hookCmd st ev pm)
    | none => some (applyUpdate hookCmd st ev pm)

/-- Run of the status manager over a list of received events, starting from
the NewManager state; none if any event panics the manager. -/
def runManager (hookCmd : String) (evs : List UpdateEvent) : Option ManagerState :=
  evs.foldlM (fun st ev => handleEvent hookCmd st ev) initialManagerState

/-- C3: if the table already maps ev.InnerAddr to ev.OuterAddr under
ev.Protocol, handleEvent returns the state unchanged (so no file write and no
hook spawn), and handling the same event twice in succession yields the same
table, file write history, and hook count as handling it once. -/
theorem handleEvent_idempotent (hookCmd : String) (st : ManagerState) (ev : UpdateEvent) :
    (∀ pm, lookupA st.mappings ev.Protocol = some pm →
       lookupA pm ev.InnerAddr = some ev.OuterAddr →
       handleEvent hookCmd st ev = some st)
  ∧ (∀ st₁, handleEvent hookCmd st ev = some st₁ →
       handleEvent hookCmd st₁ ev = some st₁) := by
  constructor
  · intro pm hp hi
    simp [handleEvent, hp, hi]
  · intro st₁ h
    cases hp : lookupA st.mappings ev.Protocol with
    | none => simp [handleEvent, hp] at h
    | some pm =>
      have hupd : st₁ = applyUpdate hookCmd st ev pm →
          handleEvent hookCmd st₁ ev = some st₁ := by
        intro hst
        have h1 : lookupA st₁.mappings ev.Protocol
            = some (setA pm ev.InnerAddr ev.OuterAddr) := by
          rw [hst]
          simpa [applyUpdate] using
            lookupA_setA_self st.mappings ev.Protocol (setA pm ev.InnerAddr ev.OuterAddr)
        have h2 : lookupA (setA pm ev.InnerAddr ev.OuterAddr) ev.InnerAddr
            = some ev.OuterAddr := lookupA_setA_self pm ev.InnerAddr ev.OuterAddr
        simp [handleEvent, h1, h2]
      cases hi : lookupA pm ev.InnerAddr with
      | some old =>
        by_cases ho : old = ev.OuterAddr
        · have hst : st = st₁ := by simpa [handleEvent, hp, hi, ho] using h
          rw [← hst]
          simp [handleEvent, hp, hi, ho]
        · have hst : applyUpdate hookCmd st ev pm = st₁ := by
            simpa [handleEvent, hp, hi, ho] using h
          exact hupd hst.symm
      | none =>
        have hst : applyUpdate hookCmd st ev pm = st₁ := by
          simpa [handleEvent, hp, hi] using h
        exact hupd hst.symm

/-- Witness for handleEvent_idempotent: concrete dedup no-op. -/
theorem handleEvent_idempotent_witness :
    handleEvent "" ⟨[("tcp", [("i", "o")]), ("udp", [])], [], 3⟩ ⟨"tcp", "i", "o"⟩
      = some ⟨[("tcp", [("i", "o")]), ("udp", [])], [], 3⟩ :=
  (handleEvent_idempotent "" ⟨[("tcp", [("i", "o")]), ("udp", [])], [], 3⟩
    ⟨"tcp", "i", "o"⟩).1 [("i", "o")] rfl rfl

/-- C9: with the table seeded (and kept) at exactly the keys "tcp" and "udp",
handleEvent never faults for events whose Protocol is "tcp" or "udp", and
always faults (nil-map write panic) for any other Protocol value. -/
theorem handleEvent_protocol_safety (hookCmd : String) (st : ManagerState) (ev : UpdateEvent)
    (hkeys : st.mappings.map Prod.fst = ["tcp", "udp"]) :
    ((ev.Protocol = "tcp" ∨ ev.Protocol = "udp") →
       (handleEvent hookCmd st ev).isSome = true)
  ∧ (ev.Protocol ≠ "tcp" → ev.Protocol ≠ "udp" →
       handleEvent hookCmd st ev = none) := by
  cases hm : st.mappings with
  | nil => rw [hm] at hkeys; simp at hkeys
  | cons kv1 rest =>
    cases rest with
    | nil => rw [hm] at hkeys; simp at hkeys
    | cons kv2 tail =>
      cases tail with
      | cons kv3 t2 => rw [hm] at hkeys; simp at hkeys
      | nil =>
        rw [hm] at hkeys
        simp only [List.map_cons, List.map_nil, List.cons.injEq, and_true] at hkeys
        obtain ⟨h1, h2⟩ := hkeys
        constructor
        · intro hp
          have hsome : ∃ pm, lookupA st.mappings ev.Protocol = some pm := by
            rcases hp with hp | hp <;> rw [hm] <;>
              simp [lookupA, h1, h2, hp]
          obtain ⟨pm, hpm⟩ := hsome
          cases hq : lookupA pm ev.InnerAddr with
          | none => simp [handleEvent, hpm, hq]
          | some old =>
            by_cases ho : old = ev.OuterAddr <;> simp [handleEvent, hpm, hq, ho]
        · intro hn1 hn2
          have hnone : lookupA st.mappings ev.Protocol = none := by
            rw [hm]
            simp [lookupA, h1, h2, Ne.symm hn1, Ne.symm hn2]
          simp [handleEvent, hnone]

/-- Witness for handleEvent_protocol_safety: the seeded table accepts a tcp
event and panics on an icmp event. -/
theorem handleEvent_protocol_safety_witness :
    (handleEvent "h" initialManagerState ⟨"tcp", "a", "b"⟩).isSome = true
  ∧ handleEvent "h" initialManagerState ⟨"icmp", "a", "b"⟩ = none :=
  ⟨(handleEvent_protocol_safety "h" initialManagerState ⟨"tcp", "a", "b"⟩ rfl).1
      (Or.inl rfl),
   (handleEvent_protocol_safety "h" initialManagerState ⟨"icmp", "a", "b"⟩ rfl).2
      (by decide) (by decide)⟩

theorem recsOf_all (pm : List (String × String)) :
    (recsOf pm).all isMappingRecord = true := by
  induction pm with
  | nil => rfl
  | cons io rest ih => simp [recsOf, isMappingRecord, List.all_cons] at ih ⊢; exact ih

theorem keys_pair_shape {α : Type} (m : List (String × α))
    (hkeys : m.map Prod.fst = ["tcp", "udp"]) :
    ∃ a b, m = [("tcp", a), ("udp", b)] := by
  cases m with
  | nil => simp at hkeys
  | cons kv1 rest =>
    cases rest with
    | nil => simp at hkeys
    | cons kv2 tail =>
      cases tail with
      | cons kv3 t2 => simp at hkeys
      | nil =>
        simp only [List.map_cons, List.map_nil, List.cons.injEq, and_true] at hkeys
        exact ⟨kv1.2, kv2.2, by
          obtain ⟨h1, h2⟩ := hkeys
          rw [← h1, ← h2]⟩

theorem writeFileDoc_shape (m : List (String × List (String × String)))
    (hkeys : m.map Prod.fst = ["tcp", "udp"]) :
    isStatusDoc (writeFileDoc m) = true := by
  obtain ⟨a, b, rfl⟩ := keys_pair_shape m hkeys
  simp [writeFileDoc, appendRecs, lookupA, setA, isStatusDoc, recsOf_all]

/-- Invariant carried by every reachable manager state: the table keys are
exactly "tcp" and "udp", and every document written so far has the status
file shape. -/
def managerInv (st : ManagerState) : Prop :=
  st.mappings.map Prod.fst = ["tcp", "udp"] ∧ ∀ d ∈ st.docs, isStatusDoc d = true

theorem applyUpdate_inv (hookCmd : String) (st : ManagerState) (ev : UpdateEvent)
    (pm : List (String × String)) (hp : lookupA st.mappings ev.Protocol = some pm)
    (hinv : managerInv st) : managerInv (applyUpdate hookCmd st ev pm) := by
  have hk : (setA st.mappings ev.Protocol (setA pm ev.InnerAddr ev.OuterAddr)).map Prod.fst
      = ["tcp", "udp"] := by
    rw [keys_setA_of_lookup st.mappings ev.Protocol pm (setA pm ev.InnerAddr ev.OuterAddr) hp]
    exact hinv.1
  refine ⟨hk, ?_⟩
  intro d hd
  simp only [applyUpdate, List.mem_append, List.mem_singleton] at hd
  rcases hd with hd | hd
  · exact hinv.2 d hd
  · rw [hd]
    exact writeFileDoc_shape _ hk

theorem handleEvent_inv (hookCmd : String) (st st₁ : ManagerState) (ev : UpdateEvent)
    (hinv : managerInv st) (h : handleEvent hookCmd st ev = some st₁) :
    managerInv st₁ := by
  cases hp : lookupA st.mappings ev.Protocol with
  | none => simp [handleEvent, hp] at h
  | some pm =>
    cases hq : lookupA pm ev.InnerAddr with
    | some old =>
      by_cases ho : old = ev.OuterAddr
      · have hst : st = st₁ := by simpa [handleEvent, hp, hq, ho] using h
        rw [← hst]; exact hinv
      · have hst : applyUpdate hookCmd st ev pm = st₁ := by
          simpa [handleEvent, hp, hq, ho] using h
        rw [← hst]; exact applyUpdate_inv hookCmd st ev pm hp hinv
    | none =>
      have hst : applyUpdate hookCmd st ev pm = st₁ := by
        simpa [handleEvent, hp, hq] using h
      rw [← hst]; exact applyUpdate_inv hookCmd st ev pm hp hinv

theorem runManagerAux_inv (hookCmd : String) (evs : List UpdateEvent) :
    ∀ st st₁, managerInv st →
      evs.foldlM (fun s e => handleEvent hookCmd s e) st = some st₁ →
      managerInv st₁ := by
  induction evs with
  | nil =>
    intro st st₁ h hh
    simp only [List.foldlM_nil, Option.pure_def, Option.some.injEq] at hh
    rw [← hh]; exact h
  | cons ev rest ih =>
    intro st st₁ h hh
    simp only [List.foldlM_cons] at hh
    cases he : handleEvent hookCmd st ev with
    | none => rw [he] at hh; simp at hh
    | some stm =>
      rw [he] at hh
      simp only [Option.bind_eq_bind, Option.some_bind] at hh
      exact ih stm st₁ (handleEvent_inv hookCmd st stm ev h he) hh

/-- C7: every document the status manager writes to the status file is a JSON
object whose top level has exactly the keys "tcp" and "udp", each an array of
objects with exactly the fields "inner" and "outer", for any run whose events
all carry protocol "tcp" or "udp". -/
theorem statusFile_shape (hookCmd : String) (evs : List UpdateEvent) (st : ManagerState)
    (_hproto : ∀ ev ∈ evs, ev.Protocol = "tcp" ∨ ev.Protocol = "udp")
    (hrun : runManager hookCmd evs = some st) :
    ∀ d ∈ st.docs, isStatusDoc d = true :=
  (runManagerAux_inv hookCmd evs initialManagerState st
    ⟨rfl, by intro d hd; simp [initialManagerState] at hd⟩ hrun).2

/-- Witness for statusFile_shape: one tcp event, one written document. -/
theorem statusFile_shape_witness :
    isStatusDoc
      (writeFileDoc [("tcp", [("10.0.0.2:34567", "203.0.113.4:51900")]), ("udp", [])])
      = true :=
  statusFile_shape "x" [⟨"tcp", "10.0.0.2:34567", "203.0.113.4:51900"⟩]
    (ManagerState.mk
      [("tcp", [("10.0.0.2:34567", "203.0.113.4:51900")]), ("udp", [])]
      [writeFileDoc [("tcp", [("10.0.0.2:34567", "203.0.113.4:51900")]), ("udp", [])]]
      1)
    (by decide) rfl
    (writeFileDoc [("tcp", [("10.0.0.2:34567", "203.0.113.4:51900")]), ("udp", [])])
    (by simp)

/-! ## STUN worker loop (orchestrator runWorker, src/unnamed/part_002) -/

/-- Formatting of the outer address in runWorker:
fmt.Sprintf of ExternalIP, ExternalPort. -/
def formatOuter (ip : String) (port : Nat) : String :=
  ip ++ ":" ++ toString port

/-- Per-worker loop state: the last published outer address (empty string
before the first publication) and the events sent so far, in order. -/
structure WorkerState where
  lastOuter : String
  sent      : List UpdateEvent
deriving DecidableEq, Repr

/-- One iteration of runWorker's loop body for a given probe result:
none models a failed STUN mapping call (only logged), some (ip, port) a
successful one. An event is enqueued exactly when the formatted outer
address differs from lastOuter, which is then updated. -/
def workerStep (proto inner : String) (st : WorkerState) (res : Option (String × Nat)) :
    WorkerState :=
  match res with
  | none => st
  | some r =>
    let outer := formatOuter r.1 r.2
    if outer ≠ st.lastOuter then
      { lastOuter := outer, sent := st.sent ++ [⟨proto, inner, outer⟩] }
    else st

/-- Worker state after a sequence of probe results, starting from
lastOuter = "" and nothing sent. -/
def runWorker (proto inner : String) (results : List (Option (String × Nat))) :
    WorkerState :=
  results.foldl (workerStep proto inner) ⟨"", []⟩

theorem formatOuter_ne_empty (ip : String) (port : Nat) :
    formatOuter ip port ≠ "" := by
  intro h
  have hl := congrArg String.length h
  simp [formatOuter, String.length_append] at hl
  exact absurd hl.1.2 (by decide)

/-- Invariant of the worker loop: emitted outer addresses are pairwise
distinct in adjacent positions, and the last emitted outer equals lastOuter. -/
def workerInv (st : WorkerState) : Prop :=
  List.Chain' (fun a b => a.OuterAddr ≠ b.OuterAddr) st.sent
  ∧ ∀ e, st.sent.getLast? = some e → e.OuterAddr = st.lastOuter

theorem workerStep_inv (proto inner : String) (st : WorkerState)
    (res : Option (String × Nat)) (hinv : workerInv st) :
    workerInv (workerStep proto inner st res) := by
  cases res with
  | none => exact hinv
  | some r =>
    by_cases h : formatOuter r.1 r.2 = st.lastOuter
    · simp [workerStep, h]
      exact hinv
    · simp [workerStep, h]
      constructor
      · rw [List.chain'_append]
        refine ⟨hinv.1, List.chain'_singleton _, ?_⟩
        intro x hx y hy
        simp at hy
        rw [← hy]
        simp only []
        rw [hinv.2 x hx]
        exact fun hc => h hc.symm
      · intro e he
        simp at he
        rw [← he]

theorem runWorkerAux_inv (proto inner : String) (results : List (Option (String × Nat))) :
    ∀ st, workerInv st → workerInv (results.foldl (workerStep proto inner) st) := by
  induction results with
  | nil => intro st h; exact h
  | cons r rest ih =>
    intro st h
    exact ih _ (workerStep_inv proto inner st r h)

theorem foldl_workerStep_none (proto inner : String)
    (results : List (Option (String × Nat))) (hall : ∀ r ∈ results, r = none) :
    ∀ st, results.foldl (workerStep proto inner) st = st := by
  induction results with
  | nil => intro st; rfl
  | cons r rest ih =>
    intro st
    have hr : r = none := hall r (by simp)
    rw [List.foldl_cons, hr]
    exact ih (fun x hx => hall x (by simp [hx])) st

/-- C2: every event a worker sends carries an outer address different from the
outer address of the previous event it sent (the worker's inner address is
fixed); a successful probe whose formatted outer equals the last published
value enqueues nothing; and the first success (compared against the initial
empty string) always emits, since a formatted outer address is never empty. -/
theorem worker_emits_only_changes (proto inner : String)
    (results : List (Option (String × Nat))) :
    List.Chain' (fun a b => a.OuterAddr ≠ b.OuterAddr) (runWorker proto inner results).sent
  ∧ (∀ st r, formatOuter r.1 r.2 = st.lastOuter →
       workerStep proto inner st (some r) = st)
  ∧ (∀ (pre : List (Option (String × Nat))) (ip : String) (p : Nat),
       (∀ r ∈ pre, r = none) →
       (runWorker proto inner (pre ++ [some (ip, p)])).sent
         = [⟨proto, inner, formatOuter ip p⟩]) := by
  refine ⟨?_, ?_, ?_⟩
  · exact (runWorkerAux_inv proto inner results ⟨"", []⟩
      ⟨List.chain'_nil, by intro e he; simp at he⟩).1
  · intro st r h
    simp [workerStep, h]
  · intro pre ip p hall
    unfold runWorker
    rw [List.foldl_append, foldl_workerStep_none proto inner pre hall]
    simp [workerStep, formatOuter_ne_empty ip p]

/-- Witness for worker_emits_only_changes: a failed probe then a success emits
exactly one event. -/
theorem worker_emits_only_changes_witness :
    (runWorker "udp" "10.0.0.2:34567" [none, some ("203.0.113.4", 51900)]).sent
      = [⟨"udp", "10.0.0.2:34567", formatOuter "203.0.113.4" 51900⟩] :=
  (worker_emits_only_changes "udp" "10.0.0.2:34567" []).2.2
    [none] "203.0.113.4" 51900 (by decide)

/-! ## TCP keep-alive loop (internal/keepalive, src/unnamed/part_003 lines 78-153)

Durations are Go time.Duration values, i.e. signed 64-bit nanosecond counts,
modelled as Int with explicit wraparound where the code multiplies. The Go
backoff update is
backoff = time.Duration(math.Min(float64(backoff multiplied by 2), float64(60s))):
the doubling is int64 arithmetic and wraps; each operand of math.Min is the
float64 nearest its integer argument (60s being exactly representable); the
conversion back to Duration truncates, which is exact here because both
candidate results are integral floats within the int64 range whenever they
are selected. The update is modelled by wrap64, floatRound64 and
kaBackoffNext below. -/

/-- Translation of minInterval: a non-positive interval is clamped to
5 seconds. -/
def minInterval (d : Int) : Int :=
  if d ≤ 0 then 5000000000 else d

/-- Ceiling of the reconnect backoff: 60 seconds in nanoseconds. -/
def backoffCeiling : Int := 60000000000

/-- Two's-complement wraparound of a signed 64-bit computation, as performed
by Go int64 (time.Duration) multiplication. -/
def wrap64 (v : Int) : Int :=
  (v + 2 ^ 63) % 2 ^ 64 - 2 ^ 63

/-- Number of binary digits of n, with explicit fuel so the recursion is
structural; fuel 128 is exact for every n below 2 to the 128. -/
def bitsAux : Nat → Nat → Nat
  | 0, _ => 0
  | _ + 1, 0 => 0
  | fuel + 1, n + 1 => bitsAux fuel ((n + 1) / 2) + 1

/-- Binary digit count used by the float64 rounding model. -/
def bits64 (n : Nat) : Nat := bitsAux 128 n

/-- Integer value of the float64 nearest to d (round to nearest, ties to
even), for magnitudes up to 2 to the 63: integers below 2 to the 53 are
exactly representable; larger magnitudes are rounded to the 53-bit
significand grid of width 2 to the (bits - 53). -/
def floatRound64 (d : Int) : Int :=
  let m := d.natAbs
  if m < 2 ^ 53 then d
  else
    let e := bits64 m - 53
    let q := m / 2 ^ e
    let r := m % 2 ^ e
    let h := 2 ^ (e - 1)
    let q' := if h < r then q + 1 else if r < h then q else q + q % 2
    d.sign * ((q' * 2 ^ e : Nat) : Int)

/-- Backoff update executed after a failed dial, following the Go expression
exactly: double with int64 wraparound, convert to float64 (rounding), take
math.Min against the exactly representable 60s, convert back. -/
def kaBackoffNext (b : Int) : Int :=
  let f := floatRound64 (wrap64 (2 * b))
  if f ≤ backoffCeiling then f else backoffCeiling

/-- Events observed by the TCP keep-alive loop: a dial attempt succeeding or
failing (only made while disconnected), and the connection dropping on a
write or read error. -/
inductive KAEvent where
  | dialOk
  | dialFail
  | connLost
deriving DecidableEq, Repr

/-- Observable state of the TCP keep-alive loop: whether a connection is
held, the current reconnect backoff, and the list of backoff waits performed
after failed dials, in order. -/
structure KAState where
  connected : Bool
  backoff   : Int
  waits     : List Int
deriving DecidableEq, Repr

/-- State at loop entry: disconnected, backoff initialised to the clamped
interval (the local variable interval is reassigned to minInterval interval
before the loop). -/
def tcpKeepAliveEntry (interval : Int) : KAState :=
  { connected := false, backoff := minInterval interval, waits := [] }

/-- One loop event of TCPKeepAlive: on a failed dial the loop sleeps the
current backoff and then applies the doubling update kaBackoffNext; on a
successful dial it resets the backoff to the clamped interval; losing the
connection returns to the disconnected state. -/
def kaStep (interval : Int) (st : KAState) (e : KAEvent) : KAState :=
  match e, st.connected with
  | KAEvent.dialFail, false =>
      { st with waits := st.waits ++ [st.backoff],
                backoff := kaBackoffNext st.backoff }
  | KAEvent.dialOk, false =>
      { st with connected := true, backoff := minInterval interval }
  | KAEvent.connLost, true =>
      { st with connected := false }
  | _, _ => st

/-- TCP keep-alive loop state after a sequence of events. -/
def tcpKeepAliveRun (interval : Int) (evs : List KAEvent) : KAState :=
  evs.foldl (kaStep interval) (tcpKeepAliveEntry interval)

theorem bitsAux_zero (fuel : Nat) : bitsAux fuel 0 = 0 := by
  cases fuel <;> rfl

theorem bitsAux_spec : ∀ (fuel n : Nat), n < 2 ^ fuel →
    n < 2 ^ bitsAux fuel n ∧ (0 < n → 2 ^ (bitsAux fuel n - 1) ≤ n) := by
  intro fuel
  induction fuel with
  | zero =>
    intro n h
    have hn : n = 0 := by simpa using h
    subst hn
    simp [bitsAux]
  | succ fuel ih =>
    intro n h
    cases n with
    | zero => simp [bitsAux]
    | succ k =>
      have hpow : (2:Nat) ^ (fuel + 1) = 2 * 2 ^ fuel := by
        rw [pow_succ]; ring
      have hdiv : (k + 1) / 2 < 2 ^ fuel := by omega
      obtain ⟨ihu, ihl⟩ := ih ((k + 1) / 2) hdiv
      rw [show bitsAux (fuel + 1) (k + 1) = bitsAux fuel ((k + 1) / 2) + 1 from rfl]
      constructor
      · have hpB : (2:Nat) ^ (bitsAux fuel ((k + 1) / 2) + 1)
            = 2 * 2 ^ bitsAux fuel ((k + 1) / 2) := by
          rw [pow_succ]; ring
        omega
      · intro _
        rcases Nat.eq_zero_or_pos ((k + 1) / 2) with hz | hp
        · have hk : k = 0 := by omega
          subst hk
          rw [show ((0 + 1 : Nat)) / 2 = 0 from rfl, bitsAux_zero]
          simp
        · have hBl := ihl hp
          have hB1 : 1 ≤ bitsAux fuel ((k + 1) / 2) := by
            by_contra hc
            have hB0 : bitsAux fuel ((k + 1) / 2) = 0 := by omega
            rw [hB0] at ihu
            simp at ihu
            omega
          have hpB : (2:Nat) ^ bitsAux fuel ((k + 1) / 2)
              = 2 * 2 ^ (bitsAux fuel ((k + 1) / 2) - 1) := by
            conv_lhs => rw [show bitsAux fuel ((k + 1) / 2)
              = (bitsAux fuel ((k + 1) / 2) - 1) + 1 by omega]
            rw [pow_succ]; ring
          simp only [Nat.add_sub_cancel]
          omega

theorem floatRound64_small (d : Int) (h : d.natAbs < 2 ^ 53) :
    floatRound64 d = d := by
  simp only [floatRound64]
  rw [if_pos h]

theorem floatRound64_large_pos (d : Int) (h1 : 2 ^ 53 ≤ d) (h2 : d < 2 ^ 63) :
    2 ^ 53 ≤ floatRound64 d := by
  have e53 : (2:Int) ^ 53 = 9007199254740992 := by norm_num
  have e63 : (2:Int) ^ 63 = 9223372036854775808 := by norm_num
  have hm1 : 9007199254740992 ≤ d.natAbs := by omega
  have hm2 : d.natAbs < 2 ^ 128 := by
    have hx : d.natAbs < 9223372036854775808 := by omega
    exact lt_of_lt_of_le hx (by norm_num)
  obtain ⟨hu, hl⟩ := bitsAux_spec 128 d.natAbs hm2
  have hnot : ¬ d.natAbs < 2 ^ 53 := by
    have : (2:Nat) ^ 53 = 9007199254740992 := by norm_num
    omega
  have hL54 : 54 ≤ bits64 d.natAbs := by
    by_contra hc
    have hle : bitsAux 128 d.natAbs ≤ 53 := by
      simpa [bits64] using Nat.lt_succ_iff.mp (by omega : bits64 d.natAbs < 54)
    have : d.natAbs < 2 ^ 53 :=
      lt_of_lt_of_le hu (Nat.pow_le_pow_right (by norm_num) hle)
    exact hnot this
  have hlow : 2 ^ (bits64 d.natAbs - 1) ≤ d.natAbs := hl (by omega)
  have hq : 2 ^ 52 ≤ d.natAbs / 2 ^ (bits64 d.natAbs - 53) := by
    rw [Nat.le_div_iff_mul_le (Nat.pos_pow_of_pos _ (by norm_num))]
    calc 2 ^ 52 * 2 ^ (bits64 d.natAbs - 53)
        = 2 ^ (52 + (bits64 d.natAbs - 53)) := (pow_add 2 52 _).symm
      _ = 2 ^ (bits64 d.natAbs - 1) := by congr 1; omega
      _ ≤ d.natAbs := hlow
  have hsign : d.sign = 1 := Int.sign_eq_one_iff_pos.mpr (by omega)
  have he1 : 1 ≤ bits64 d.natAbs - 53 := by omega
  have hpe : (2:Nat) ≤ 2 ^ (bits64 d.natAbs - 53) :=
    le_trans (by norm_num) (Nat.pow_le_pow_right (by norm_num) he1)
  simp only [floatRound64, hnot, if_false, hsign, one_mul]
  have hgoal : ∀ q' : Nat, d.natAbs / 2 ^ (bits64 d.natAbs - 53) ≤ q' →
      (2:Int) ^ 53 ≤ ((q' * 2 ^ (bits64 d.natAbs - 53) : Nat) : Int) := by
    intro q' hq'
    have hn : (2:Nat) ^ 53 ≤ q' * 2 ^ (bits64 d.natAbs - 53) := by
      calc (2:Nat) ^ 53 = 2 ^ 52 * 2 := by norm_num
        _ ≤ q' * 2 ^ (bits64 d.natAbs - 53) :=
            Nat.mul_le_mul (le_trans hq hq') hpe
    exact_mod_cast hn
  split
  · exact hgoal _ (Nat.le_succ _)
  · split
    · exact hgoal _ le_rfl
    · exact hgoal _ (Nat.le_add_right _ _)

theorem kaBackoffNext_eq_min (b : Int) (h0 : 0 ≤ b) (h1 : b < 2 ^ 62) :
    kaBackoffNext b = min (2 * b) backoffCeiling := by
  have e62 : (2:Int) ^ 62 = 4611686018427387904 := by norm_num
  have e63 : (2:Int) ^ 63 = 9223372036854775808 := by norm_num
  have e64 : (2:Int) ^ 64 = 18446744073709551616 := by norm_num
  have hw : wrap64 (2 * b) = 2 * b := by
    rw [wrap64]
    rw [Int.emod_eq_of_lt (by omega) (by omega)]
    ring
  simp only [kaBackoffNext, hw]
  by_cases hc : (2 * b).natAbs < 2 ^ 53
  · rw [floatRound64_small _ hc]
    rcases le_or_lt (2 * b) backoffCeiling with hle | hlt
    · rw [if_pos hle, min_eq_left hle]
    · rw [if_neg (not_le.mpr hlt), min_eq_right (le_of_lt hlt)]
  · have e53 : (2:Int) ^ 53 = 9007199254740992 := by norm_num
    have e53n : (2:Nat) ^ 53 = 9007199254740992 := by norm_num
    have h53 : (2:Int) ^ 53 ≤ 2 * b := by omega
    have hf := floatRound64_large_pos (2 * b) h53 (by omega)
    have hcl : backoffCeiling < floatRound64 (2 * b) := by
      rw [backoffCeiling]; omega
    rw [if_neg (not_le.mpr hcl)]
    rw [min_eq_right (by rw [backoffCeiling]; omega)]

/-- C4 counterexample: the interval 4.7e9 seconds (config interval
4700000000, a legal int) yields a backoff of 4.7e18 ns; on the first failed
dial the Go doubling overflows int64 and the code stores the wrapped
negative duration -9046744073709551616 ns, not min of twice the backoff and
60 seconds (which is 60 seconds). -/
theorem tcp_keepalive_overflow_counterexample :
    (tcpKeepAliveRun 4700000000000000000 []).connected = false
  ∧ (tcpKeepAliveRun 4700000000000000000 []).backoff = 4700000000000000000
  ∧ (tcpKeepAliveRun 4700000000000000000 [KAEvent.dialFail]).backoff
      = -9046744073709551616
  ∧ min (2 * (tcpKeepAliveRun 4700000000000000000 []).backoff) backoffCeiling
      = 60000000000
  ∧ (-9046744073709551616 : Int) ≠ 60000000000 := by
  refine ⟨rfl, rfl, by decide, by decide, by decide⟩

/-- C4 (amended): the reconnect backoff starts equal to the clamped
interval; while disconnected, a failed dial first waits the current backoff
and, provided twice the current backoff stays within the signed 64-bit
duration range (backoff below 2 to the 62 nanoseconds, about 146 years),
the next backoff is min of twice the current backoff and 60 seconds (beyond
that the int64 doubling wraps and the code stores the wrapped value, see
the counterexample); a successful dial resets the backoff to the clamped
interval. -/
theorem tcp_keepalive_backoff (interval : Int) (evs : List KAEvent) :
    (tcpKeepAliveRun interval []).backoff = minInterval interval
  ∧ ((tcpKeepAliveRun interval evs).connected = false →
       0 ≤ (tcpKeepAliveRun interval evs).backoff →
       (tcpKeepAliveRun interval evs).backoff < 2 ^ 62 →
       tcpKeepAliveRun interval (evs ++ [KAEvent.dialFail]) =
         { connected := false,
           backoff := min (2 * (tcpKeepAliveRun interval evs).backoff) backoffCeiling,
           waits := (tcpKeepAliveRun interval evs).waits
                      ++ [(tcpKeepAliveRun interval evs).backoff] })
  ∧ ((tcpKeepAliveRun interval evs).connected = false →
       tcpKeepAliveRun interval (evs ++ [KAEvent.dialOk]) =
         { connected := true,
           backoff := minInterval interval,
           waits := (tcpKeepAliveRun interval evs).waits }) := by
  refine ⟨rfl, ?_, ?_⟩
  · intro h h0 h1
    rw [tcpKeepAliveRun, List.foldl_append]
    rw [show List.foldl (kaStep interval) (tcpKeepAliveEntry interval) evs
          = tcpKeepAliveRun interval evs from rfl]
    simp [kaStep, h, kaBackoffNext_eq_min (tcpKeepAliveRun interval evs).backoff h0 h1]
  · intro h
    rw [tcpKeepAliveRun, List.foldl_append]
    rw [show List.foldl (kaStep interval) (tcpKeepAliveEntry interval) evs
          = tcpKeepAliveRun interval evs from rfl]
    simp [kaStep, h]

/-- Witness for tcp_keepalive_backoff: a 10 second interval and one failed
dial: the loop waited 10s and doubled the backoff to 20s. -/
theorem tcp_keepalive_backoff_witness :
    tcpKeepAliveRun 10000000000 [KAEvent.dialFail]
      = { connected := false, backoff := 20000000000,
          waits := [10000000000] } := by
  have h2 := (tcp_keepalive_backoff 10000000000 []).2.1 rfl (by decide) (by decide)
  rw [show ([KAEvent.dialFail] : List KAEvent)
        = [] ++ [KAEvent.dialFail] from rfl, h2]
  decide

/-! ## STUN client (internal/stun, src/unnamed/part_004) -/

/-- Mapping returned by the STUN client. Addresses are kept as strings and
ports as Nat; only the data flow matters for the claims. -/
structure Mapping where
  InternalIP   : String
  InternalPort : Nat
  ExternalIP   : String
  ExternalPort : Nat
deriving DecidableEq, Repr

/-- Per-server outcome of one probe attempt, covering every continue branch
of the loop bodies of GetUDPMapping and GetTCPMapping: address resolution
failure, dial failure, STUN transaction failure, or a successful transaction
yielding the XOR-mapped external address. -/
inductive StunOutcome where
  | resolveErr
  | dialErr
  | txnErr
  | success (externalIP : String) (externalPort : Nat)
deriving DecidableEq, Repr

/-- True exactly for a successful probe outcome. -/
def stunOk : StunOutcome → Bool
  | StunOutcome.success _ _ => true
  | _ => false

/-- Loop of GetUDPMapping: servers are scanned in order, each failure falls
through to the next server; the first success returns a mapping built from
the bound local address and the XOR-mapped external address. The first
component of the result lists the servers contacted, in order. -/
def GetUDPMappingScan (bindIP : String) (srcPort : Nat) (probe : String → StunOutcome) :
    List String → List String → List String × Except String Mapping
  | [], contacted => (contacted, Except.error "all UDP STUN servers failed")
  | server :: rest, contacted =>
    match probe server with
    | StunOutcome.success ip p =>
        (contacted ++ [server], Except.ok ⟨bindIP, srcPort, ip, p⟩)
    | _ => GetUDPMappingScan bindIP srcPort probe rest (contacted ++ [server])

/-- Translation of GetUDPMapping (src/unnamed/part_004 lines 42-94). -/
def GetUDPMapping (bindIP : String) (srcPort : Nat) (probe : String → StunOutcome)
    (servers : List String) : List String × Except String Mapping :=
  GetUDPMappingScan bindIP srcPort probe servers []

/-- Loop of GetTCPMapping, identical control flow with the TCP error text. -/
def GetTCPMappingScan (bindIP : String) (srcPort : Nat) (probe : String → StunOutcome) :
    List String → List String → List String × Except String Mapping
  | [], contacted => (contacted, Except.error "all TCP STUN servers failed")
  | server :: rest, contacted =>
    match probe server with
    | StunOutcome.success ip p =>
        (contacted ++ [server], Except.ok ⟨bindIP, srcPort, ip, p⟩)
    | _ => GetTCPMappingScan bindIP srcPort probe rest (contacted ++ [server])

/-- Translation of GetTCPMapping (src/unnamed/part_004 lines 98-152). -/
def GetTCPMapping (bindIP : String) (srcPort : Nat) (probe : String → StunOutcome)
    (servers : List String) : List String × Except String Mapping :=
  GetTCPMappingScan bindIP srcPort probe servers []

theorem GetUDPMappingScan_all_fail (bindIP : String) (srcPort : Nat)
    (probe : String → StunOutcome) (servers : List String)
    (hall : ∀ s ∈ servers, stunOk (probe s) = false) :
    ∀ acc, GetUDPMappingScan bindIP srcPort probe servers acc
      = (acc ++ servers, Except.error "all UDP STUN servers failed") := by
  induction servers with
  | nil => intro acc; simp [GetUDPMappingScan]
  | cons server rest ih =>
    intro acc
    have hs : stunOk (probe server) = false := hall server (by simp)
    have hrest : ∀ s ∈ rest, stunOk (probe s) = false :=
      fun s hx => hall s (by simp [hx])
    cases hp : probe server with
    | success ip p => rw [hp] at hs; simp [stunOk] at hs
    | resolveErr => simp [GetUDPMappingScan, hp, ih hrest]
    | dialErr => simp [GetUDPMappingScan, hp, ih hrest]
    | txnErr => simp [GetUDPMappingScan, hp, ih hrest]

theorem GetTCPMappingScan_all_fail (bindIP : String) (srcPort : Nat)
    (probe : String → StunOutcome) (servers : List String)
    (hall : ∀ s ∈ servers, stunOk (probe s) = false) :
    ∀ acc, GetTCPMappingScan bindIP srcPort probe servers acc
      = (acc ++ servers, Except.error "all TCP STUN servers failed") := by
  induction servers with
  | nil => intro acc; simp [GetTCPMappingScan]
  | cons server rest ih =>
    intro acc
    have hs : stunOk (probe server) = false := hall server (by simp)
    have hrest : ∀ s ∈ rest, stunOk (probe s) = false :=
      fun s hx => hall s (by simp [hx])
    cases hp : probe server with
    | success ip p => rw [hp] at hs; simp [stunOk] at hs
    | resolveErr => simp [GetTCPMappingScan, hp, ih hrest]
    | dialErr => simp [GetTCPMappingScan, hp, ih hrest]
    | txnErr => simp [GetTCPMappingScan, hp, ih hrest]

theorem GetUDPMappingScan_first_success (bindIP : String) (srcPort : Nat)
    (probe : String → StunOutcome) (pre : List String)
    (hpre : ∀ s ∈ pre, stunOk (probe s) = false) :
    ∀ acc server rest ip p, probe server = StunOutcome.success ip p →
      GetUDPMappingScan bindIP srcPort probe (pre ++ server :: rest) acc
        = (acc ++ pre ++ [server], Except.ok ⟨bindIP, srcPort, ip, p⟩) := by
  induction pre with
  | nil =>
    intro acc server rest ip p hp
    simp [GetUDPMappingScan, hp]
  | cons s0 rest0 ih =>
    intro acc server rest ip p hp
    have hs : stunOk (probe s0) = false := hpre s0 (by simp)
    have hrest : ∀ s ∈ rest0, stunOk (probe s) = false :=
      fun s hx => hpre s (by simp [hx])
    cases hq : probe s0 with
    | success ip2 p2 => rw [hq] at hs; simp [stunOk] at hs
    | resolveErr => simpa [GetUDPMappingScan, hq] using ih hrest (acc ++ [s0]) server rest ip p hp
    | dialErr => simpa [GetUDPMappingScan, hq] using ih hrest (acc ++ [s0]) server rest ip p hp
    | txnErr => simpa [GetUDPMappingScan, hq] using ih hrest (acc ++ [s0]) server rest ip p hp

theorem GetTCPMappingScan_first_success (bindIP : String) (srcPort : Nat)
    (probe : String → StunOutcome) (pre : List String)
    (hpre : ∀ s ∈ pre, stunOk (probe s) = false) :
    ∀ acc server rest ip p, probe server = StunOutcome.success ip p →
      GetTCPMappingScan bindIP srcPort probe (pre ++ server :: rest) acc
        = (acc ++ pre ++ [server], Except.ok ⟨bindIP, srcPort, ip, p⟩) := by
  induction pre with
  | nil =>
    intro acc server rest ip p hp
    simp [GetTCPMappingScan, hp]
  | cons s0 rest0 ih =>
    intro acc server rest ip p hp
    have hs : stunOk (probe s0) = false := hpre s0 (by simp)
    have hrest : ∀ s ∈ rest0, stunOk (probe s) = false :=
      fun s hx => hpre s (by simp [hx])
    cases hq : probe s0 with
    | success ip2 p2 => rw [hq] at hs; simp [stunOk] at hs
    | resolveErr => simpa [GetTCPMappingScan, hq] using ih hrest (acc ++ [s0]) server rest ip p hp
    | dialErr => simpa [GetTCPMappingScan, hq] using ih hrest (acc ++ [s0]) server rest ip p hp
    | txnErr => simpa [GetTCPMappingScan, hq] using ih hrest (acc ++ [s0]) server rest ip p hp

/-- C5: both GetUDPMapping and GetTCPMapping try the configured servers
strictly in list order; the first server whose transaction succeeds
determines the returned mapping and no later server is contacted; when every
server fails (in particular for an empty list) the call returns no mapping
and the single all-servers-failed error of its protocol. -/
theorem stun_mapping_failover (bindIP : String) (srcPort : Nat)
    (probe : String → StunOutcome) (servers : List String) :
    ((∀ s ∈ servers, stunOk (probe s) = false) →
       GetUDPMapping bindIP srcPort probe servers
           = (servers, Except.error "all UDP STUN servers failed")
     ∧ GetTCPMapping bindIP srcPort probe servers
           = (servers, Except.error "all TCP STUN servers failed"))
  ∧ (∀ (pre : List String) (server : String) (rest : List String) (ip : String) (p : Nat),
       servers = pre ++ server :: rest →
       (∀ s ∈ pre, stunOk (probe s) = false) →
       probe server = StunOutcome.success ip p →
       GetUDPMapping bindIP srcPort probe servers
           = (pre ++ [server], Except.ok ⟨bindIP, srcPort, ip, p⟩)
     ∧ GetTCPMapping bindIP srcPort probe servers
           = (pre ++ [server], Except.ok ⟨bindIP, srcPort, ip, p⟩)) := by
  constructor
  · intro hall
    constructor
    · simpa using GetUDPMappingScan_all_fail bindIP srcPort probe servers hall []
    · simpa using GetTCPMappingScan_all_fail bindIP srcPort probe servers hall []
  · intro pre server rest ip p hsplit hpre hp
    constructor
    · rw [GetUDPMapping, hsplit]
      simpa using GetUDPMappingScan_first_success bindIP srcPort probe pre hpre [] server rest ip p hp
    · rw [GetTCPMapping, hsplit]
      simpa using GetTCPMappingScan_first_success bindIP srcPort probe pre hpre [] server rest ip p hp

/-- Witness for stun_mapping_failover: the first server fails, the second
succeeds, the third is never contacted. -/
theorem stun_mapping_failover_witness :
    GetUDPMapping "10.0.0.2" 34567
        (fun s => if s = "b" then StunOutcome.success "203.0.113.4" 51900
                  else StunOutcome.dialErr)
        ["a", "b", "c"]
      = (["a", "b"], Except.ok ⟨"10.0.0.2", 34567, "203.0.113.4", 51900⟩) :=
  ((stun_mapping_failover "10.0.0.2" 34567
      (fun s => if s = "b" then StunOutcome.success "203.0.113.4" 51900
                else StunOutcome.dialErr)
      ["a", "b", "c"]).2 ["a"] "b" ["c"] "203.0.113.4" 51900
    rfl (by decide) (by decide)).1

/-! ## Orchestrator construction (src/unnamed/part_002): splitAddr, portOf,
forwarder pairing. Go strings are modelled through their character lists;
strings.LastIndex returns a byte index, but since a colon is a single UTF-8
byte on a character boundary, slicing at it divides the string at the same
place in both views. -/

/-- Index of the last colon of a character list, as computed by
strings.LastIndex; none models the Go result -1. -/
def lastColonIdx : List Char → Option Nat
  | [] => none
  | c :: cs =>
    match lastColonIdx cs with
    | some i => some (i + 1)
    | none => if c = ':' then some 0 else none

theorem lastColonIdx_eq_none_iff (l : List Char) :
    lastColonIdx l = none ↔ ':' ∉ l := by
  induction l with
  | nil => simp [lastColonIdx]
  | cons c cs ih =>
    cases h : lastColonIdx cs with
    | some j =>
      have hmem : ':' ∈ cs := by
        by_contra hc
        rw [ih.mpr hc] at h
        cases h
      simp [lastColonIdx, h, hmem]
    | none =>
      by_cases hc : c = ':'
      · simp [lastColonIdx, h, hc]
      · have hcs : ¬(':' = c) := fun hx => hc hx.symm
        simp [lastColonIdx, h, hc, ih.mp h, hcs]

theorem lastColonIdx_split (l : List Char) :
    ∀ i, lastColonIdx l = some i →
      l.take i ++ ':' :: l.drop (i + 1) = l ∧ ':' ∉ l.drop (i + 1) := by
  induction l with
  | nil => intro i h; simp [lastColonIdx] at h
  | cons c cs ih =>
    intro i h
    cases hq : lastColonIdx cs with
    | some j =>
      have hi : j + 1 = i := by simpa [lastColonIdx, hq] using h
      obtain rfl := hi.symm
      obtain ⟨h1, h2⟩ := ih j hq
      refine ⟨?_, by simpa using h2⟩
      simp only [List.take_succ_cons, List.drop_succ_cons, List.cons_append]
      rw [h1]
    | none =>
      by_cases hc : c = ':'
      · have hi : i = 0 := by
          have := h
          simp [lastColonIdx, hq, hc] at this
          omega
        subst hi
        simp [hc]
        exact (lastColonIdx_eq_none_iff cs).mp hq
      · simp [lastColonIdx, hq, hc] at h

/-- Translation of portOf: the substring after the last colon; with no colon
strings.LastIndex yields -1 and addr from byte 0 is the whole string. -/
def portOf (addr : String) : String :=
  match lastColonIdx addr.data with
  | none => addr
  | some i => String.mk (addr.data.drop (i + 1))

/-! ## Go strconv.Atoi (used by splitAddr with its error discarded) -/

/-- Value of a digit run, most significant first. -/
def digitsVal (l : List Char) : Nat :=
  l.foldl (fun acc c => acc * 10 + (c.toNat - '0'.toNat)) 0

/-- Syntactic wellformedness of strconv.Atoi input: an optional single sign
followed by at least one digit, nothing else. -/
def atoiShapeOk : List Char → Bool
  | [] => false
  | c :: rest =>
    if c = '+' || c = '-' then !rest.isEmpty && rest.all (fun d => d.isDigit)
    else (c :: rest).all (fun d => d.isDigit)

/-- Unclamped mathematical value of a wellformed Atoi input. -/
def atoiRawValue : List Char → Int
  | '-' :: rest => - (digitsVal rest : Int)
  | '+' :: rest => (digitsVal rest : Int)
  | l => (digitsVal l : Int)

/-- Largest Go int value (64-bit build). -/
def maxI64 : Int := 9223372036854775807

/-- Smallest Go int value (64-bit build). -/
def minI64 : Int := -9223372036854775808

/-- Clamp to the signed 64-bit range, as strconv.ParseInt does on range
overflow (Atoi then discards the ErrRange but keeps the clamped value). -/
def clampI64 (v : Int) : Int :=
  if v > maxI64 then maxI64 else if v < minI64 then minI64 else v

/-- Translation of the Go expression pi, _ := strconv.Atoi(s): 0 on a syntax
error, otherwise the value clamped to the signed 64-bit range. -/
def goAtoi (s : String) : Int :=
  if atoiShapeOk s.data then clampI64 (atoiRawValue s.data) else 0

/-- Translation of splitAddr (src/unnamed/part_002 lines 232-238). With no
colon, strings.LastIndex gives p = -1 and the slice expression a[:p] panics
(slice bound out of range), modelled as none. -/
def splitAddr (a : String) : Option (String × Int) :=
  match lastColonIdx a.data with
  | none => none
  | some p =>
      some (String.mk (a.data.take p), goAtoi (String.mk (a.data.drop (p + 1))))

/-- Parsing loop of orchestrator.New over one open-port list; none as soon as
one entry makes splitAddr panic. -/
def parseAddrs : List String → Option (List (String × Int))
  | [] => some []
  | a :: rest =>
    match splitAddr a, parseAddrs rest with
    | some hp, some tl => some (hp :: tl)
    | _, _ => none

/-- TCPForwarder value as created by forward.NewTCPForwarder. -/
structure TCPForwarder where
  ListenAddr : String
  TargetAddr : String
deriving DecidableEq, Repr

/-- Translation of forward.NewTCPForwarder (observable configuration only). -/
def NewTCPForwarder (listenAddr targetAddr : String) : TCPForwarder :=
  ⟨listenAddr, targetAddr⟩

/-- Forwarder list built by orchestrator.New (src/unnamed/part_002 lines
64-79): index-wise pairing when the two TCP lists have equal length, else one
forwarder per target listening on 0.0.0.0 at the target's port. -/
def newTCPForwarders (openTCP fwdTCP : List String) : List TCPForwarder :=
  if openTCP.length = fwdTCP.length then
    (openTCP.zip fwdTCP).map (fun pr => NewTCPForwarder pr.1 pr.2)
  else
    fwdTCP.map (fun target => NewTCPForwarder ("0.0.0.0:" ++ portOf target) target)

/-- Observable result of orchestrator.New: parsed open endpoints and the TCP
forwarders; none when splitAddr panics on some open-port entry. -/
structure NatterModel where
  tcpOpens : List (String × Int)
  udpOpens : List (String × Int)
  tcpFwds  : List TCPForwarder
deriving DecidableEq, Repr

/-- Translation of orchestrator.New restricted to its total, observable
effects: parse both open-port lists with splitAddr, then build the TCP
forwarder list. -/
def NewNatter (openTCP openUDP fwdTCP : List String) : Option NatterModel :=
  match parseAddrs openTCP, parseAddrs openUDP with
  | some t, some u => some ⟨t, u, newTCPForwarders openTCP fwdTCP⟩
  | _, _ => none

theorem zipmap_fwd_get : ∀ (openTCP fwdTCP : List String) (i : Nat) (a b : String),
    openTCP[i]? = some a → fwdTCP[i]? = some b →
    ((openTCP.zip fwdTCP).map (fun pr => NewTCPForwarder pr.1 pr.2))[i]?
      = some (NewTCPForwarder a b)
  | [], _, i, a, b, ha, _ => by simp at ha
  | _ :: _, [], i, a, b, _, hb => by simp at hb
  | o :: os, f :: fs, 0, a, b, ha, hb => by
      simp at ha hb
      simp [List.zip_cons_cons, ha, hb, NewTCPForwarder]
  | o :: os, f :: fs, i + 1, a, b, ha, hb => by
      simp only [List.getElem?_cons_succ] at ha hb
      simpa [List.zip_cons_cons] using zipmap_fwd_get os fs i a b ha hb

theorem portOf_after_last_colon (t : String) (h : ':' ∈ t.data) :
    ∃ pre, t.data = pre ++ ':' :: (portOf t).data ∧ ':' ∉ (portOf t).data := by
  cases hq : lastColonIdx t.data with
  | none => exact absurd h ((lastColonIdx_eq_none_iff t.data).mp hq)
  | some i =>
    obtain ⟨h1, h2⟩ := lastColonIdx_split t.data i hq
    refine ⟨t.data.take i, ?_, ?_⟩
    · rw [portOf, hq]
      exact h1.symm
    · rw [portOf, hq]
      exact h2

/-- C6: when the configured open_port.tcp and forward_port.tcp lists have
equal length, one forwarder per index is created listening on the open
address with the matching target; otherwise one forwarder per target is
created listening on 0.0.0.0 at the substring of the target after its last
colon (portOf, shown to return exactly that substring); and orchestrator.New
installs precisely this forwarder list. -/
theorem tcp_forwarder_pairing (openTCP fwdTCP : List String) :
    (openTCP.length = fwdTCP.length →
       (newTCPForwarders openTCP fwdTCP).length = fwdTCP.length
     ∧ ∀ (i : Nat) (a b : String), openTCP[i]? = some a → fwdTCP[i]? = some b →
         (newTCPForwarders openTCP fwdTCP)[i]? = some (NewTCPForwarder a b))
  ∧ (openTCP.length ≠ fwdTCP.length →
       (newTCPForwarders openTCP fwdTCP).length = fwdTCP.length
     ∧ ∀ (i : Nat) (b : String), fwdTCP[i]? = some b →
         (newTCPForwarders openTCP fwdTCP)[i]?
           = some (NewTCPForwarder ("0.0.0.0:" ++ portOf b) b))
  ∧ (∀ t : String, ':' ∈ t.data →
       ∃ pre, t.data = pre ++ ':' :: (portOf t).data ∧ ':' ∉ (portOf t).data)
  ∧ (∀ openUDP n, NewNatter openTCP openUDP fwdTCP = some n →
       n.tcpFwds = newTCPForwarders openTCP fwdTCP) := by
  refine ⟨?_, ?_, ?_, ?_⟩
  · intro h
    constructor
    · simp [newTCPForwarders, h, List.length_zip]
    · intro i a b ha hb
      rw [newTCPForwarders, if_pos h]
      exact zipmap_fwd_get openTCP fwdTCP i a b ha hb
  · intro h
    constructor
    · simp [newTCPForwarders, h]
    · intro i b hb
      rw [newTCPForwarders, if_neg h]
      simp [List.getElem?_map, hb]
  · intro t ht
    exact portOf_after_last_colon t ht
  · intro openUDP n hn
    cases hpt : parseAddrs openTCP with
    | none => simp [NewNatter, hpt] at hn
    | some t =>
      cases hpu : parseAddrs openUDP with
      | none => simp [NewNatter, hpt, hpu] at hn
      | some u =>
        simp [NewNatter, hpt, hpu] at hn
        rw [← hn]

/-- Witness for tcp_forwarder_pairing: one forwarder in each pairing mode. -/
theorem tcp_forwarder_pairing_witness :
    (newTCPForwarders ["0.0.0.0:34567"] ["192.168.1.10:80"])[0]?
      = some (NewTCPForwarder "0.0.0.0:34567" "192.168.1.10:80")
  ∧ (newTCPForwarders [] ["192.168.1.10:80"])[0]?
      = some (NewTCPForwarder ("0.0.0.0:" ++ portOf "192.168.1.10:80") "192.168.1.10:80") :=
  ⟨((tcp_forwarder_pairing ["0.0.0.0:34567"] ["192.168.1.10:80"]).1 rfl).2
      0 "0.0.0.0:34567" "192.168.1.10:80" rfl rfl,
   ((tcp_forwarder_pairing [] ["192.168.1.10:80"]).2.1 (by decide)).2
      0 "192.168.1.10:80" rfl⟩

/-- C10 counterexample: the open-port entry "h:9999999999999999999999" has a
numeric suffix, so per the claim splitAddr should return its integer value;
the code (strconv.Atoi discarding the error) returns the value clamped to
the 64-bit range instead. -/
theorem splitAddr_range_counterexample :
    atoiShapeOk "9999999999999999999999".data = true
  ∧ atoiRawValue "9999999999999999999999".data = 9999999999999999999999
  ∧ splitAddr "h:9999999999999999999999" = some ("h", 9223372036854775807)
  ∧ (9223372036854775807 : Int) ≠ 9999999999999999999999 := by
  refine ⟨by decide, by decide, by decide, by decide⟩

theorem splitAddr_isSome_iff (a : String) :
    (splitAddr a).isSome = true ↔ ':' ∈ a.data := by
  cases hq : lastColonIdx a.data with
  | none => simp [splitAddr, hq, (lastColonIdx_eq_none_iff a.data).mp hq]
  | some i =>
    have hmem : ':' ∈ a.data := by
      by_contra hc
      rw [(lastColonIdx_eq_none_iff a.data).mpr hc] at hq
      cases hq
    simp [splitAddr, hq, hmem]

theorem parseAddrs_isSome_iff (l : List String) :
    (parseAddrs l).isSome = true ↔ ∀ s ∈ l, ':' ∈ s.data := by
  induction l with
  | nil => simp [parseAddrs]
  | cons a rest ih =>
    cases hs : splitAddr a with
    | none =>
      have hnc : ':' ∉ a.data := by
        by_contra hc
        have hx := (splitAddr_isSome_iff a).mpr hc
        rw [hs] at hx
        cases hx
      simp [parseAddrs, hs, hnc]
    | some hp =>
      have hmem : ':' ∈ a.data := (splitAddr_isSome_iff a).mp (by rw [hs]; rfl)
      cases hr : parseAddrs rest with
      | none =>
        rw [hr] at ih
        simp only [Option.isSome_none, Bool.false_eq_true, false_iff] at ih
        simp only [parseAddrs, hs, hr, Option.isSome_none, Bool.false_eq_true, false_iff]
        intro hall
        exact ih (fun s hx => hall s (List.mem_cons_of_mem a hx))
      | some tl =>
        rw [hr] at ih
        simp only [Option.isSome_some, true_iff] at ih
        simp only [parseAddrs, hs, hr, Option.isSome_some, true_iff]
        intro s hx
        rcases List.mem_cons.mp hx with hx1 | hx2
        · rw [hx1]; exact hmem
        · exact ih s hx2

theorem NewNatter_isSome_iff (openTCP openUDP fwdTCP : List String) :
    (NewNatter openTCP openUDP fwdTCP).isSome = true ↔
      ((∀ s ∈ openTCP, ':' ∈ s.data) ∧ (∀ s ∈ openUDP, ':' ∈ s.data)) := by
  cases ht : parseAddrs openTCP with
  | none =>
    have hT := parseAddrs_isSome_iff openTCP
    rw [ht] at hT
    simp only [Option.isSome_none, Bool.false_eq_true, false_iff] at hT
    simp only [NewNatter, ht, Option.isSome_none, Bool.false_eq_true, false_iff]
    exact fun h => hT h.1
  | some t =>
    have hT := parseAddrs_isSome_iff openTCP
    rw [ht] at hT
    simp only [Option.isSome_some, true_iff] at hT
    cases hu : parseAddrs openUDP with
    | none =>
      have hU := parseAddrs_isSome_iff openUDP
      rw [hu] at hU
      simp only [Option.isSome_none, Bool.false_eq_true, false_iff] at hU
      simp only [NewNatter, ht, hu, Option.isSome_none, Bool.false_eq_true, false_iff]
      exact fun h => hU h.2
    | some u =>
      have hU := parseAddrs_isSome_iff openUDP
      rw [hu] at hU
      simp only [Option.isSome_some, true_iff] at hU
      simp only [NewNatter, ht, hu, Option.isSome_some, true_iff]
      exact ⟨hT, hU⟩

/-- C10 (amended): for a string containing a colon, splitAddr returns the
prefix before the last colon together with the integer value of the suffix
clamped to the signed 64-bit range (0 when the suffix is not a number); for
a string with no colon splitAddr panics; orchestrator.New is total exactly
when every configured open-port entry contains a colon. -/
theorem splitAddr_spec (a : String) :
    (':' ∈ a.data →
       ∃ pre suf, a.data = pre ++ ':' :: suf ∧ ':' ∉ suf ∧
         splitAddr a = some (String.mk pre,
           if atoiShapeOk suf = true then clampI64 (atoiRawValue suf) else 0))
  ∧ (':' ∉ a.data → splitAddr a = none)
  ∧ (∀ openTCP openUDP fwdTCP : List String,
       (NewNatter openTCP openUDP fwdTCP).isSome = true ↔
         ((∀ s ∈ openTCP, ':' ∈ s.data) ∧ (∀ s ∈ openUDP, ':' ∈ s.data))) := by
  refine ⟨?_, ?_, ?_⟩
  · intro h
    cases hq : lastColonIdx a.data with
    | none => exact absurd h ((lastColonIdx_eq_none_iff a.data).mp hq)
    | some i =>
      obtain ⟨h1, h2⟩ := lastColonIdx_split a.data i hq
      refine ⟨a.data.take i, a.data.drop (i + 1), h1.symm, h2, ?_⟩
      rw [splitAddr, hq]
      rfl
  · intro h
    rw [splitAddr, (lastColonIdx_eq_none_iff a.data).mpr h]
  · intro openTCP openUDP fwdTCP
    exact NewNatter_isSome_iff openTCP openUDP fwdTCP

/-- Witness for splitAddr_spec: a colon-free entry panics, a wellformed
config constructs. -/
theorem splitAddr_spec_witness :
    splitAddr "nocolon" = none
  ∧ ((NewNatter ["10.0.0.2:34567"] [] []).isSome = true ↔
       ((∀ s ∈ ["10.0.0.2:34567"], ':' ∈ s.data)
        ∧ (∀ s ∈ ([] : List String), ':' ∈ s.data))) :=
  ⟨(splitAddr_spec "nocolon").2.1 (by decide),
   (splitAddr_spec "x").2.2 ["10.0.0.2:34567"] [] []⟩

/-! ## UDP keep-alive DNS frame (src/unnamed/part_003 lines 157-207) -/

/-- Packet built by one UDPKeepAlive tick for a two-byte transaction ID:
header = txid plus the literal bytes 0x01 0x00 (flags), 0x00 0x01 (one
question), and six zero count bytes; then the hard-coded qname bytes for
keepalive.natter; then type and class bytes. -/
def udpKeepAlivePacket (t1 t2 : Nat) : List Nat :=
  let txid := [t1, t2]
  let header := txid ++ [0x01, 0x00, 0x00, 0x01, 0x00, 0x00, 0x00, 0x00, 0x00, 0x00]
  let qname := [0x09, 'k'.toNat, 'e'.toNat, 'e'.toNat, 'p'.toNat, 'a'.toNat,
                'l'.toNat, 'i'.toNat, 'v'.toNat, 'e'.toNat,
                0x06, 'n'.toNat, 'a'.toNat, 't'.toNat, 't'.toNat, 'e'.toNat,
                'r'.toNat, 0x00]
  let question := [0x00, 0x01, 0x00, 0x01]
  header ++ (qname ++ question)

/-- Datagrams sent by one iteration of the UDP keep-alive loop body
(src/unnamed/part_003 lines 170-207): the body first resolves the host; on
a failed resolution (resolved = none) it only waits for the next tick and
sends nothing; otherwise it builds the frame and performs exactly one
WriteTo with it (a WriteTo error is only logged, the single send attempt
still carries the frame). -/
def udpKeepAliveTickSends (resolved : Option String) (t1 t2 : Nat) :
    List (List Nat) :=
  match resolved with
  | none => []
  | some _ => [udpKeepAlivePacket t1 t2]

/-- DNS name encoding per the claim's wording: length-prefixed labels,
zero-terminated, label bytes being the character codes. -/
def dnsEncodeLabels (labels : List String) : List Nat :=
  (labels.map (fun l => l.length :: l.data.map Char.toNat)).flatten ++ [0x00]

/-- C8 counterexample: a tick on which the resolution of the keep-alive host
fails sends no datagram at all, so the claim's unconditional one datagram
per tick is false of the loop body. -/
theorem udp_keepalive_resolve_failure_counterexample :
    udpKeepAliveTickSends none 0 0 = []
  ∧ (udpKeepAliveTickSends none 0 0).length ≠ 1 := by
  refine ⟨rfl, by decide⟩

/-- C8 (amended): each UDP keep-alive tick on which the host resolution
succeeds sends exactly one datagram, whose payload is the 2-byte transaction
ID, flags 0x01 0x00, question count 1, zero answer/authority/additional
counts, the zero-terminated length-prefixed labels of keepalive.natter,
type A (0x0001), class IN (0x0001), and nothing after the question (the
packet is exactly 34 bytes); a tick whose resolution fails sends nothing and
retries on the next tick. -/
theorem udp_keepalive_frame (t1 t2 : Nat) :
    (∀ raddr : String, udpKeepAliveTickSends (some raddr) t1 t2
        = [udpKeepAlivePacket t1 t2])
  ∧ udpKeepAliveTickSends none t1 t2 = []
  ∧ udpKeepAlivePacket t1 t2 =
      [t1, t2] ++ [0x01, 0x00] ++ [0x00, 0x01] ++ [0x00, 0x00] ++ [0x00, 0x00]
        ++ [0x00, 0x00] ++ dnsEncodeLabels ["keepalive", "natter"]
        ++ [0x00, 0x01] ++ [0x00, 0x01]
  ∧ (udpKeepAlivePacket t1 t2).length = 34 := by
  refine ⟨fun raddr => rfl, rfl, ?_, rfl⟩
  rfl

/-! ## Socket creation sites and address reuse (for the monitored local port)

Each definition records whether the corresponding Go socket creation site
installs a Control callback setting SO_REUSEADDR (and SO_REUSEPORT on Unix;
on Windows the same sites clear SO_EXCLUSIVEADDRUSE and set SO_REUSEADDR
whenever the Unix site sets both). -/

/-- Socket-level address reuse options requested at one creation site. -/
structure SocketCtl where
  reuseAddr : Bool
  reusePort : Bool
deriving DecidableEq, Repr

/-- Options installed by forward.listenWithReuse
(internal/forward/listen_unix.go): both options set. -/
def listenWithReuseCtl : SocketCtl := ⟨true, true⟩

/-- Options installed by stun.newBoundDialer
(internal/stun/bound_dialer_unix.go): both options set. -/
def newBoundDialerCtl : SocketCtl := ⟨true, true⟩

/-- Options installed by keepalive.newDialerWithReuse
(internal/keepalive/dialer_unix.go): both options set. This helper is
defined in the repository but has no caller. -/
def newDialerWithReuseCtl : SocketCtl := ⟨true, true⟩

/-- Options of a Go socket created with no Control callback
(net.Dialer literal, net.DialUDP, net.ListenPacket): none set. -/
def goDefaultSocketCtl : SocketCtl := ⟨false, false⟩

/-- STUN TCP probe socket: GetTCPMapping dials through newBoundDialer
(src/unnamed/part_004 line 105). -/
def stunTCPProbeCtl : SocketCtl := newBoundDialerCtl

/-- STUN UDP probe socket: GetUDPMapping calls net.DialUDP directly with no
Control callback (src/unnamed/part_004 line 55). -/
def stunUDPProbeCtl : SocketCtl := goDefaultSocketCtl

/-- TCP forwarder listener: TCPForwarder.Start listens through
listenWithReuse (internal/forward/tcp.go line 34). -/
def tcpForwarderListenerCtl : SocketCtl := listenWithReuseCtl

/-- TCP keep-alive dialer: TCPKeepAlive constructs a plain net.Dialer with
only LocalAddr and Timeout (src/unnamed/part_003 line 104), not
newDialerWithReuse. -/
def tcpKeepAliveDialerCtl : SocketCtl := goDefaultSocketCtl

/-- UDP keep-alive packet socket: the orchestrator calls net.ListenPacket
directly with no ListenConfig Control (src/unnamed/part_002, Run). -/
def udpKeepAlivePacketSocketCtl : SocketCtl := goDefaultSocketCtl

/-- The five creation sites of sockets touching a monitored local port named
by the claim: STUN probe (TCP and UDP), TCP forwarder listener, TCP
keep-alive dialer, UDP keep-alive packet socket. -/
def monitoredPortSocketCtls : List SocketCtl :=
  [stunTCPProbeCtl, stunUDPProbeCtl, tcpForwarderListenerCtl,
   tcpKeepAliveDialerCtl, udpKeepAlivePacketSocketCtl]

/-- C1 (code evaluation): of the sockets touching a monitored local port,
only the STUN TCP probe and the TCP forwarder listener enable address reuse;
the TCP keep-alive dialer, the STUN UDP probe socket and the UDP keep-alive
packet socket are created with no reuse options, although the unused helper
newDialerWithReuse would have provided them. The claim's universally
quantified reuse property is therefore false of the code. -/
theorem socket_reuse_sites :
    stunTCPProbeCtl = ⟨true, true⟩
  ∧ tcpForwarderListenerCtl = ⟨true, true⟩
  ∧ newDialerWithReuseCtl = ⟨true, true⟩
  ∧ tcpKeepAliveDialerCtl = ⟨false, false⟩
  ∧ stunUDPProbeCtl = ⟨false, false⟩
  ∧ udpKeepAlivePacketSocketCtl = ⟨false, false⟩
  ∧ monitoredPortSocketCtls.all (fun s => s.reuseAddr && s.reusePort) = false := by
  decide

end NatterGo
